import Mathlib

/-!
Verification of the biometric-auditor core: the compliance evaluation
engine (`apps/api/agents/compliance_agent.py`) and the history store /
trend analyzer (`apps/api/history_manager.py`), shallowly embedded.

Modelling conventions:
* Python floats are modelled as `ℚ`; Python ints as `ℤ` or `ℕ` as
  appropriate.  Timestamps are abstract integer instants (`ℤ`); the
  wall clock is passed explicitly as a `Clock` value.
* A Python dict used as a record with possibly-missing keys
  (`d.get(k, default)`) becomes a structure with `Option` fields read
  through `Option.getD`.
* A raised, uncaught Python exception is modelled as the `none` /
  `notFound` branch of an `Option` / result type.
* The f-string reason and insight texts interpolate the observed value
  into a fixed template determined by the rule that fired, so a reason
  is modelled as the record of the rule (tier and metric) together with
  the interpolated value; the fixed surrounding text is a function of
  the rule alone.
-/

/-- Compliance status, the values of the Python `status` string. -/
inductive Status
  | Optimal
  | Warning
  | Critical
deriving Repr, DecidableEq

/-- Tier of a triggered threshold rule (`CRITICAL: ...` vs `Warning: ...`). -/
inductive Tier
  | critical
  | warning
deriving Repr, DecidableEq

/-- The metric a reason talks about, in the evaluator's fixed check order. -/
inductive Metric
  | sleep
  | heart_rate
  | recovery
deriving Repr, DecidableEq

/-- One reason string, modelled structurally: the rule that fired (tier and
metric, which determine the fixed template text) plus the literal observed
value interpolated into the text. -/
structure Reason where
  tier : Tier
  metric : Metric
  value : ℚ
deriving Repr, DecidableEq

/-- The evaluator's input dict `biometrics`: each key may be absent, and
`biometrics.get(key, 0)` supplies the default `0`. -/
structure BiometricInput where
  sleep_hours : Option ℚ
  resting_hr : Option ℚ
  recovery_score : Option ℚ
deriving Repr, DecidableEq

/-- Fixed priority message for final `Critical` status. -/
def criticalMsg : String := "⚠️ CRITICAL: Immediate rest is recommended. Do not train today."

/-- Fixed priority message for final `Warning` status. -/
def warningMsg : String := "⚡ WARNING: Proceed with caution. Consider a lighter workout."

/-- Fixed priority message for final `Optimal` status. -/
def optimalMsg : String := "✅ OPTIMAL: All systems green. You're cleared for training!"

/-- Result dict of `check_compliance`. -/
structure ComplianceResult where
  status : Status
  severity_score : ℕ
  reasons : List Reason
  priority_message : String
  biometrics : BiometricInput
deriving Repr, DecidableEq

/-- The `--- SLEEP CHECKS ---` block of `check_compliance`, acting on the
mutable `(status, severity_score, reasons)` state. -/
def sleepCheck (sleep : ℚ) (st : Status) (sev : ℕ) (rs : List Reason) :
    Status × ℕ × List Reason :=
  if sleep < 5 then
    (Status.Critical, sev + 3, rs ++ [⟨Tier.critical, Metric.sleep, sleep⟩])
  else if sleep < 6 then
    ((if st ≠ Status.Critical then Status.Warning else st), sev + 1,
      rs ++ [⟨Tier.warning, Metric.sleep, sleep⟩])
  else (st, sev, rs)

/-- The `--- RESTING HEART RATE CHECKS ---` block of `check_compliance`. -/
def hrCheck (hr : ℚ) (st : Status) (sev : ℕ) (rs : List Reason) :
    Status × ℕ × List Reason :=
  if hr > 95 then
    (Status.Critical, sev + 3, rs ++ [⟨Tier.critical, Metric.heart_rate, hr⟩])
  else if hr > 80 then
    ((if st ≠ Status.Critical then Status.Warning else st), sev + 1,
      rs ++ [⟨Tier.warning, Metric.heart_rate, hr⟩])
  else (st, sev, rs)

/-- The `--- RECOVERY SCORE CHECKS ---` block of `check_compliance`. -/
def recoveryCheck (recovery : ℚ) (st : Status) (sev : ℕ) (rs : List Reason) :
    Status × ℕ × List Reason :=
  if recovery < 40 then
    (Status.Critical, sev + 3, rs ++ [⟨Tier.critical, Metric.recovery, recovery⟩])
  else if recovery < 60 then
    ((if st ≠ Status.Critical then Status.Warning else st), sev + 1,
      rs ++ [⟨Tier.warning, Metric.recovery, recovery⟩])
  else (st, sev, rs)

/-- `check_compliance(biometrics)` from `compliance_agent.py`: reads each
metric with default `0`, runs the three threshold blocks in order on the
state initialised to `("Optimal", 0, [])`, then picks the priority message
from the final status (the initial message is always overwritten). -/
def check_compliance (biometrics : BiometricInput) : ComplianceResult :=
  let sleep := biometrics.sleep_hours.getD 0
  let hr := biometrics.resting_hr.getD 0
  let recovery := biometrics.recovery_score.getD 0
  let r1 := sleepCheck sleep Status.Optimal 0 []
  let r2 := hrCheck hr r1.1 r1.2.1 r1.2.2
  let r3 := recoveryCheck recovery r2.1 r2.2.1 r2.2.2
  { status := r3.1
    severity_score := r3.2.1
    reasons := r3.2.2
    priority_message :=
      if r3.1 = Status.Critical then criticalMsg
      else if r3.1 = Status.Warning then warningMsg
      else optimalMsg
    biometrics := biometrics }

/-! Specification-side view of the evaluator, for the aggregation claim:
per-metric tier assignment from the threshold table, a severity order on
statuses, and per-tier penalty. -/

/-- Tier triggered by the sleep metric per the threshold table
(`<5` critical, `<6` warning). -/
def sleepTier (v : ℚ) : Option Tier :=
  if v < 5 then some Tier.critical else if v < 6 then some Tier.warning else none

/-- Tier triggered by the resting heart rate (`>95` critical, `>80` warning). -/
def hrTier (v : ℚ) : Option Tier :=
  if v > 95 then some Tier.critical else if v > 80 then some Tier.warning else none

/-- Tier triggered by the recovery score (`<40` critical, `<60` warning). -/
def recoveryTier (v : ℚ) : Option Tier :=
  if v < 40 then some Tier.critical else if v < 60 then some Tier.warning else none

/-- Status contributed by a triggered tier. -/
def tierStatus : Option Tier → Status
  | some Tier.critical => Status.Critical
  | some Tier.warning => Status.Warning
  | none => Status.Optimal

/-- Penalty contributed by a triggered tier. -/
def tierPenalty : Option Tier → ℕ
  | some Tier.critical => 3
  | some Tier.warning => 1
  | none => 0

/-- Severity rank: Optimal < Warning < Critical. -/
def statusRank : Status → ℕ
  | Status.Optimal => 0
  | Status.Warning => 1
  | Status.Critical => 2

/-- The more severe of two statuses. -/
def statusMax (a b : Status) : Status :=
  if statusRank a < statusRank b then b else a

/-- The reason list contributed by one metric: empty when nothing fires,
one reason carrying the observed value when a tier fires. -/
def tierReasons (m : Metric) (t : Option Tier) (v : ℚ) : List Reason :=
  match t with
  | some tr => [⟨tr, m, v⟩]
  | none => []

/-- Priority message as a function of the final status alone. -/
def priorityMessageFor : Status → String
  | Status.Critical => criticalMsg
  | Status.Warning => warningMsg
  | Status.Optimal => optimalMsg

/-! Per-block characterisation lemmas. -/

lemma sleepCheck_eq (v : ℚ) (st : Status) (sev : ℕ) (rs : List Reason) :
    sleepCheck v st sev rs
      = (statusMax st (tierStatus (sleepTier v)), sev + tierPenalty (sleepTier v),
          rs ++ tierReasons Metric.sleep (sleepTier v) v) := by
  unfold sleepCheck sleepTier
  split_ifs with h1 h2 <;> cases st <;>
    simp_all [statusMax, statusRank, tierStatus, tierPenalty, tierReasons]

lemma hrCheck_eq (v : ℚ) (st : Status) (sev : ℕ) (rs : List Reason) :
    hrCheck v st sev rs
      = (statusMax st (tierStatus (hrTier v)), sev + tierPenalty (hrTier v),
          rs ++ tierReasons Metric.heart_rate (hrTier v) v) := by
  unfold hrCheck hrTier
  split_ifs with h1 h2 <;> cases st <;>
    simp_all [statusMax, statusRank, tierStatus, tierPenalty, tierReasons]

lemma recoveryCheck_eq (v : ℚ) (st : Status) (sev : ℕ) (rs : List Reason) :
    recoveryCheck v st sev rs
      = (statusMax st (tierStatus (recoveryTier v)), sev + tierPenalty (recoveryTier v),
          rs ++ tierReasons Metric.recovery (recoveryTier v) v) := by
  unfold recoveryCheck recoveryTier
  split_ifs with h1 h2 <;> cases st <;>
    simp_all [statusMax, statusRank, tierStatus, tierPenalty, tierReasons]

lemma statusMax_optimal_left (s : Status) : statusMax Status.Optimal s = s := by
  cases s <;> simp [statusMax, statusRank]

lemma ite_priority_eq (s : Status) :
    (if s = Status.Critical then criticalMsg
     else if s = Status.Warning then warningMsg else optimalMsg)
      = priorityMessageFor s := by
  cases s <;> simp [priorityMessageFor]

/-- Unfolded normal form of `check_compliance` in terms of the tier view. -/
lemma check_compliance_eq (b : BiometricInput) :
    check_compliance b =
      { status :=
          statusMax (statusMax (tierStatus (sleepTier (b.sleep_hours.getD 0)))
              (tierStatus (hrTier (b.resting_hr.getD 0))))
            (tierStatus (recoveryTier (b.recovery_score.getD 0)))
        severity_score :=
          tierPenalty (sleepTier (b.sleep_hours.getD 0))
            + tierPenalty (hrTier (b.resting_hr.getD 0))
            + tierPenalty (recoveryTier (b.recovery_score.getD 0))
        reasons :=
          tierReasons Metric.sleep (sleepTier (b.sleep_hours.getD 0)) (b.sleep_hours.getD 0)
            ++ tierReasons Metric.heart_rate (hrTier (b.resting_hr.getD 0)) (b.resting_hr.getD 0)
            ++ tierReasons Metric.recovery (recoveryTier (b.recovery_score.getD 0))
                (b.recovery_score.getD 0)
        priority_message :=
          priorityMessageFor
            (statusMax (statusMax (tierStatus (sleepTier (b.sleep_hours.getD 0)))
                (tierStatus (hrTier (b.resting_hr.getD 0))))
              (tierStatus (recoveryTier (b.recovery_score.getD 0))))
        biometrics := b } := by
  unfold check_compliance
  simp only [sleepCheck_eq, hrCheck_eq, recoveryCheck_eq, statusMax_optimal_left,
    Nat.zero_add, List.nil_append, List.append_assoc, ite_priority_eq]

lemma tierReasons_spec (m : Metric) (t : Option Tier) (v : ℚ) :
    (∀ x ∈ tierReasons m t v, x.metric = m ∧ x.value = v) ∧
    (tierReasons m t v).length ≤ 1 ∧
    ((tierReasons m t v).length = 1 ↔ t ≠ none) := by
  cases t <;> simp [tierReasons]

/-- C1: for every biometric snapshot, the final status is the most severe
tier triggered by any single metric (Critical dominates Warning dominates
Optimal) and severity_score is the sum of the per-metric penalties (3 per
critical, 1 per warning); for sleep ≥ 6, resting hr ≤ 80 and recovery ≥ 60
the result is Optimal with severity 0 and no reasons. -/
theorem compliance_aggregation (b : BiometricInput) :
    ((check_compliance b).status =
        statusMax (statusMax (tierStatus (sleepTier (b.sleep_hours.getD 0)))
            (tierStatus (hrTier (b.resting_hr.getD 0))))
          (tierStatus (recoveryTier (b.recovery_score.getD 0)))) ∧
    ((check_compliance b).severity_score =
        tierPenalty (sleepTier (b.sleep_hours.getD 0))
          + tierPenalty (hrTier (b.resting_hr.getD 0))
          + tierPenalty (recoveryTier (b.recovery_score.getD 0))) ∧
    (6 ≤ b.sleep_hours.getD 0 → b.resting_hr.getD 0 ≤ 80 → 60 ≤ b.recovery_score.getD 0 →
      (check_compliance b).status = Status.Optimal ∧
      (check_compliance b).severity_score = 0 ∧
      (check_compliance b).reasons = []) := by
  rw [check_compliance_eq]
  refine ⟨rfl, rfl, ?_⟩
  intro hs hh hrec
  have n1 : ¬ (b.sleep_hours.getD 0 < 5) := not_lt.mpr (by linarith)
  have n2 : ¬ (b.sleep_hours.getD 0 < 6) := not_lt.mpr hs
  have n3 : ¬ (b.resting_hr.getD 0 > 95) := not_lt.mpr (by linarith)
  have n4 : ¬ (b.resting_hr.getD 0 > 80) := not_lt.mpr hh
  have n5 : ¬ (b.recovery_score.getD 0 < 40) := not_lt.mpr (by linarith)
  have n6 : ¬ (b.recovery_score.getD 0 < 60) := not_lt.mpr hrec
  simp [sleepTier, hrTier, recoveryTier, n1, n2, n3, n4, n5, n6,
    tierStatus, tierPenalty, tierReasons, statusMax, statusRank]

/-- Witness for C1 at the concrete snapshot sleep 7h, hr 60, recovery 80. -/
theorem compliance_aggregation_witness :
    (6:ℚ) ≤ ((⟨some 7, some 60, some 80⟩ : BiometricInput).sleep_hours.getD 0) ∧
    (check_compliance ⟨some 7, some 60, some 80⟩).status = Status.Optimal ∧
    (check_compliance ⟨some 7, some 60, some 80⟩).severity_score = 0 ∧
    (check_compliance ⟨some 7, some 60, some 80⟩).reasons = [] := by
  have h := (compliance_aggregation ⟨some 7, some 60, some 80⟩).2.2
    (by decide) (by decide) (by decide)
  exact ⟨by decide, h.1, h.2.1, h.2.2⟩

/-- C7: the reasons list decomposes as the sleep block's reasons, then the
heart-rate block's, then the recovery block's; each block contributes at
most one reason, exactly one when its rule triggered, carrying that
metric's literal observed value; and the priority message is a function of
the final status alone. -/
theorem compliance_reasons_and_message (b : BiometricInput) :
    ((check_compliance b).reasons
      = tierReasons Metric.sleep (sleepTier (b.sleep_hours.getD 0)) (b.sleep_hours.getD 0)
        ++ tierReasons Metric.heart_rate (hrTier (b.resting_hr.getD 0)) (b.resting_hr.getD 0)
        ++ tierReasons Metric.recovery (recoveryTier (b.recovery_score.getD 0))
            (b.recovery_score.getD 0)) ∧
    ((∀ x ∈ tierReasons Metric.sleep (sleepTier (b.sleep_hours.getD 0)) (b.sleep_hours.getD 0),
        x.metric = Metric.sleep ∧ x.value = b.sleep_hours.getD 0) ∧
      (tierReasons Metric.sleep (sleepTier (b.sleep_hours.getD 0)) (b.sleep_hours.getD 0)).length ≤ 1 ∧
      ((tierReasons Metric.sleep (sleepTier (b.sleep_hours.getD 0)) (b.sleep_hours.getD 0)).length = 1
        ↔ sleepTier (b.sleep_hours.getD 0) ≠ none)) ∧
    ((∀ x ∈ tierReasons Metric.heart_rate (hrTier (b.resting_hr.getD 0)) (b.resting_hr.getD 0),
        x.metric = Metric.heart_rate ∧ x.value = b.resting_hr.getD 0) ∧
      (tierReasons Metric.heart_rate (hrTier (b.resting_hr.getD 0)) (b.resting_hr.getD 0)).length ≤ 1 ∧
      ((tierReasons Metric.heart_rate (hrTier (b.resting_hr.getD 0)) (b.resting_hr.getD 0)).length = 1
        ↔ hrTier (b.resting_hr.getD 0) ≠ none)) ∧
    ((∀ x ∈ tierReasons Metric.recovery (recoveryTier (b.recovery_score.getD 0))
          (b.recovery_score.getD 0),
        x.metric = Metric.recovery ∧ x.value = b.recovery_score.getD 0) ∧
      (tierReasons Metric.recovery (recoveryTier (b.recovery_score.getD 0))
          (b.recovery_score.getD 0)).length ≤ 1 ∧
      ((tierReasons Metric.recovery (recoveryTier (b.recovery_score.getD 0))
          (b.recovery_score.getD 0)).length = 1
        ↔ recoveryTier (b.recovery_score.getD 0) ≠ none)) ∧
    (check_compliance b).priority_message = priorityMessageFor (check_compliance b).status := by
  refine ⟨?_, tierReasons_spec _ _ _, tierReasons_spec _ _ _, tierReasons_spec _ _ _, ?_⟩
  · rw [check_compliance_eq]
  · rw [check_compliance_eq]

/-- Witness for C7 at sleep = 4.9 (hr 60, recovery 80): exactly one reason,
a sleep reason carrying the literal value 4.9, and the priority message
determined by the final status. -/
theorem compliance_reasons_witness :
    (check_compliance ⟨some (Rat.mk' 49 10), some 60, some 80⟩).reasons
      = [⟨Tier.critical, Metric.sleep, Rat.mk' 49 10⟩] ∧
    (check_compliance ⟨some (Rat.mk' 49 10), some 60, some 80⟩).priority_message
      = priorityMessageFor (check_compliance ⟨some (Rat.mk' 49 10), some 60, some 80⟩).status := by
  have h := compliance_reasons_and_message ⟨some (Rat.mk' 49 10), some 60, some 80⟩
  refine ⟨?_, h.2.2.2.2⟩
  rw [h.1]
  decide

/-- C10: the empty snapshot (all fields missing, defaulting to 0) yields
Critical status, severity 6, exactly the sleep-critical and
recovery-critical reasons (no heart-rate reason, since 0 is not above 80),
and the Critical priority message. -/
theorem compliance_empty_snapshot :
    check_compliance ⟨none, none, none⟩ =
      { status := Status.Critical
        severity_score := 6
        reasons := [⟨Tier.critical, Metric.sleep, 0⟩, ⟨Tier.critical, Metric.recovery, 0⟩]
        priority_message := criticalMsg
        biometrics := ⟨none, none, none⟩ } := by
  decide

/-! `history_manager.py`: data model.  The wall clock (`datetime.now()` and
its derived day-of-week / ISO-week metadata) is passed explicitly as a
`Clock`; timestamps are abstract integer instants compared the way
`datetime.fromisoformat(..) > cutoff` compares parsed timestamps. -/

/-- The values `datetime.now()` supplies to one history operation. -/
structure Clock where
  now : ℤ
  day_name : String
  week_number : ℕ
deriving Repr, DecidableEq

/-- A stored biometric snapshot: the entry's `biometrics` dict, which
`get_trends` indexes directly (`e["biometrics"]["sleep_hours"]`), so all
three keys are present. -/
structure BiometricSnapshot where
  sleep_hours : ℚ
  resting_hr : ℚ
  recovery_score : ℚ
deriving Repr, DecidableEq

/-- The `compliance` dict handed to `add_entry`, read with
`compliance.get("status")`, `compliance.get("severity_score", 0)` and
`compliance.get("reasons", [])`. -/
structure ComplianceInput where
  status : Option Status
  severity_score : Option ℕ
  reasons : Option (List Reason)
deriving Repr, DecidableEq

/-- One history entry as built by `add_entry` (the `completed_at` key only
appears once `update_workout_completion` has touched the entry). -/
structure HistoryEntry where
  id : ℕ
  timestamp : ℤ
  biometrics : BiometricSnapshot
  compliance_status : Option Status
  compliance_severity : ℕ
  compliance_reasons : List Reason
  workout_plan : String
  recommendation_preview : String
  completed : Bool
  completed_at : Option ℤ
  day_name : String
  week_number : ℕ
deriving Repr, DecidableEq

/-- Per-user record in the store (`history["users"][user_id]`).  The two
counters are Python ints, hence `ℤ`. -/
structure UserRecord where
  entries : List HistoryEntry
  created_at : ℤ
  total_workouts : ℤ
  completed_workouts : ℤ
deriving Repr, DecidableEq

/-- The whole store (`history`): the `"users"` dict as an association list
with at most one binding per key, in insertion order. -/
structure HistoryStore where
  users : List (String × UserRecord)
deriving Repr, DecidableEq

/-- The store an empty or unparseable history file loads as (`{"users": {}}`). -/
def emptyStore : HistoryStore := ⟨[]⟩

/-- Dict lookup `history["users"].get(user_id)`. -/
def findUser : List (String × UserRecord) → String → Option UserRecord
  | [], _ => none
  | (k, v) :: rest, uid => if k = uid then some v else findUser rest uid

/-- Dict assignment `history["users"][user_id] = u`. -/
def setUser : List (String × UserRecord) → String → UserRecord → List (String × UserRecord)
  | [], uid, u => [(uid, u)]
  | (k, v) :: rest, uid, u =>
      if k = uid then (k, u) :: rest else (k, v) :: setUser rest uid u

/-- `add_entry`: lazily creates the user record, builds the entry with
`id = len(entries) + 1`, truncates the recommendation to 200 characters
plus an ellipsis, appends, and bumps the counters.  Returns the updated
store (the persisted state) and the created entry. -/
def add_entry (store : HistoryStore) (ck : Clock) (user_id : String)
    (biometrics : BiometricSnapshot) (compliance : ComplianceInput)
    (workout_plan : String) (recommendation : String) (completed : Bool) :
    HistoryStore × HistoryEntry :=
  let user := match findUser store.users user_id with
    | some u => u
    | none => { entries := [], created_at := ck.now, total_workouts := 0, completed_workouts := 0 }
  let entry : HistoryEntry := {
    id := user.entries.length + 1
    timestamp := ck.now
    biometrics := biometrics
    compliance_status := compliance.status
    compliance_severity := compliance.severity_score.getD 0
    compliance_reasons := compliance.reasons.getD []
    workout_plan := workout_plan
    recommendation_preview := recommendation.take 200 ++ "..."
    completed := completed
    completed_at := none
    day_name := ck.day_name
    week_number := ck.week_number }
  let user2 : UserRecord := { user with
    entries := user.entries ++ [entry]
    total_workouts := user.total_workouts + 1
    completed_workouts := user.completed_workouts + (if completed then 1 else 0) }
  (⟨setUser store.users user_id user2⟩, entry)

/-- `get_user_history`: unknown user yields `[]`; a truthy `days` keeps
entries with `timestamp > now - days`; a truthy `limit` keeps the suffix
`entries[-limit:]`. -/
def get_user_history (store : HistoryStore) (now : ℤ) (user_id : String)
    (limit : Option ℕ) (days : Option ℕ) : List HistoryEntry :=
  match findUser store.users user_id with
  | none => []
  | some user =>
    let entries := user.entries
    let entries := match days with
      | some d => if d ≠ 0 then entries.filter (fun e => now - (d : ℤ) < e.timestamp) else entries
      | none => entries
    match limit with
    | some l => if l ≠ 0 then entries.drop (entries.length - l) else entries
    | none => entries

/-- Result of `update_workout_completion`: a raised `ValueError` (the
NotFound cases) or the updated store together with the updated entry. -/
inductive UpdateResult
  | notFound (msg : String)
  | ok (store : HistoryStore) (entry : HistoryEntry)
deriving Repr, DecidableEq

/-- The `for entry in entries` search-and-mutate loop of
`update_workout_completion`: finds the first entry with the given id, sets
`completed` and `completed_at`, and reports the entry's previous
`completed` flag; `none` when no entry matches. -/
def updateEntryLoop (entries : List HistoryEntry) (entry_id : ℕ) (completed : Bool)
    (nowTime : ℤ) : Option (List HistoryEntry × HistoryEntry × Bool) :=
  match entries with
  | [] => none
  | e :: rest =>
    if e.id = entry_id then
      let upd := { e with completed := completed, completed_at := some nowTime }
      some (upd :: rest, upd, e.completed)
    else
      match updateEntryLoop rest entry_id completed nowTime with
      | none => none
      | some (rest2, upd, old) => some (e :: rest2, upd, old)

/-- `update_workout_completion`: `ValueError` when the user is unknown or
no entry has the given id; otherwise flips the entry, adjusts
`completed_workouts` only on a `false→true` (+1) or `true→false` (−1)
transition, persists and returns the entry. -/
def update_workout_completion (store : HistoryStore) (ck : Clock) (user_id : String)
    (entry_id : ℕ) (completed : Bool) : UpdateResult :=
  match findUser store.users user_id with
  | none => UpdateResult.notFound ("User " ++ user_id ++ " not found")
  | some user =>
    match updateEntryLoop user.entries entry_id completed ck.now with
    | none => UpdateResult.notFound
        ("Entry " ++ toString entry_id ++ " not found for user " ++ user_id)
    | some (entries2, upd, old) =>
      let delta : ℤ := if completed && !old then 1 else if !completed && old then -1 else 0
      let user2 : UserRecord := { user with
        entries := entries2
        completed_workouts := user.completed_workouts + delta }
      UpdateResult.ok ⟨setUser store.users user_id user2⟩ upd

/-- Python `round(q)` / the integer `round(x, 1)` core: round half to even. -/
def pyRound (q : ℚ) : ℤ :=
  let f := ⌊q⌋
  let r := q - f
  if r < 1/2 then f
  else if 1/2 < r then f + 1
  else if f % 2 = 0 then f else f + 1

/-- Python `round(x, 1)`. -/
def roundTo1 (q : ℚ) : ℚ := (pyRound (q * 10) : ℚ) / 10

/-- `get_stats` result dict: the unknown-user zero-state payload carries a
`message` and no `member_since` / `total_entries`; the known-user payload
is the reverse. -/
structure StatsResult where
  user_id : String
  total_workouts : ℤ
  completed_workouts : ℤ
  completion_rate : ℚ
  message : Option String
  member_since : Option ℤ
  total_entries : Option ℕ
deriving Repr, DecidableEq

/-- The documented zero-state payload `get_stats` returns for unknown users. -/
def zeroStats (user_id : String) : StatsResult :=
  { user_id := user_id
    total_workouts := 0
    completed_workouts := 0
    completion_rate := 0
    message := some "No data yet - start logging your workouts!"
    member_since := none
    total_entries := none }

/-- `get_stats`: zero-state for unknown users, otherwise the stored
counters with `completion_rate = round(completed/total*100, 1)` (0 when
`total` is 0). -/
def get_stats (store : HistoryStore) (user_id : String) : StatsResult :=
  match findUser store.users user_id with
  | none => zeroStats user_id
  | some user =>
    let rate : ℚ :=
      if user.total_workouts > 0 then (user.completed_workouts : ℚ) / (user.total_workouts : ℚ) * 100
      else 0
    { user_id := user_id
      total_workouts := user.total_workouts
      completed_workouts := user.completed_workouts
      completion_rate := roundTo1 rate
      message := none
      member_since := some user.created_at
      total_entries := some user.entries.length }

/-- `_calculate_trend`: `insufficient_data` when a half is empty; otherwise
the percent change of the half means classifies the direction with an
exclusive ±5 boundary.  The division `change_pct = (Δ/avg_first)*100` is
unguarded in the source: a zero first-half mean raises
`ZeroDivisionError`, modelled as `none`. -/
def calculate_trend (first_half second_half : List ℚ) : Option String :=
  if first_half = [] ∨ second_half = [] then some "insufficient_data"
  else
    let avg_first := first_half.sum / (first_half.length : ℚ)
    let avg_second := second_half.sum / (second_half.length : ℚ)
    if avg_first = 0 then none
    else
      let change_pct := ((avg_second - avg_first) / avg_first) * 100
      if change_pct > 5 then some "improving"
      else if change_pct < -5 then some "declining"
      else some "stable"

/-- One insight, modelled structurally: the fixed template that fired plus
the value interpolated into its text. -/
inductive Insight
  | lowSleep (avg : ℚ)
  | greatSleep (avg : ℚ)
  | elevatedHR (avg : ℚ)
  | greatHR (avg : ℚ)
  | criticalShare (pct : ℚ)
  | optimalShare (pct : ℚ)
  | lowRecovery (avg : ℚ)
  | keepLogging
deriving Repr, DecidableEq

/-- Occurrence count of a status in the tally dict (`.get(s, 0)`). -/
def lookupCount (counts : List (Option Status × ℕ)) (s : Option Status) : ℕ :=
  match counts with
  | [] => 0
  | (t, n) :: rest => if t = s then n else lookupCount rest s

/-- One `status_counts[status] = status_counts.get(status, 0) + 1` step. -/
def bumpStatus (counts : List (Option Status × ℕ)) (s : Option Status) :
    List (Option Status × ℕ) :=
  match counts with
  | [] => [(s, 1)]
  | (t, n) :: rest => if t = s then (t, n + 1) :: rest else (t, n) :: bumpStatus rest s

/-- The status-distribution tally loop of `get_trends`. -/
def tallyStatuses (entries : List HistoryEntry) : List (Option Status × ℕ) :=
  entries.foldl (fun acc e => bumpStatus acc e.compliance_status) []

/-- `_generate_insights`: fixed-threshold checks in source order; the
fallback "keep logging" insight when none fires.  Only called on nonempty
lists, so the mean and share divisions are well defined. -/
def generate_insights (sleep hr recovery : List ℚ)
    (status_counts : List (Option Status × ℕ)) : List Insight :=
  let insights : List Insight := []
  let avg_sleep := sleep.sum / (sleep.length : ℚ)
  let insights := if avg_sleep < 7 then insights ++ [Insight.lowSleep avg_sleep]
    else if avg_sleep ≥ 8 then insights ++ [Insight.greatSleep avg_sleep] else insights
  let avg_hr := hr.sum / (hr.length : ℚ)
  let insights := if avg_hr > 70 then insights ++ [Insight.elevatedHR avg_hr]
    else if avg_hr < 60 then insights ++ [Insight.greatHR avg_hr] else insights
  let total : ℚ := ((status_counts.map (fun c => c.2)).sum : ℕ)
  let critical_pct := (lookupCount status_counts (some Status.Critical) : ℚ) / total * 100
  let optimal_pct := (lookupCount status_counts (some Status.Optimal) : ℚ) / total * 100
  let insights := if critical_pct > 20 then insights ++ [Insight.criticalShare critical_pct]
    else insights
  let insights := if optimal_pct > 70 then insights ++ [Insight.optimalShare optimal_pct]
    else insights
  let avg_recovery := recovery.sum / (recovery.length : ℚ)
  let insights := if avg_recovery < 60 then insights ++ [Insight.lowRecovery avg_recovery]
    else insights
  if insights = [] then [Insight.keepLogging] else insights

/-- The series `[e["biometrics"]["sleep_hours"] for e in entries]`. -/
def sleepValues (entries : List HistoryEntry) : List ℚ :=
  entries.map (fun e => e.biometrics.sleep_hours)

/-- The series `[e["biometrics"]["resting_hr"] for e in entries]`. -/
def hrValues (entries : List HistoryEntry) : List ℚ :=
  entries.map (fun e => e.biometrics.resting_hr)

/-- The series `[e["biometrics"]["recovery_score"] for e in entries]`. -/
def recoveryValues (entries : List HistoryEntry) : List ℚ :=
  entries.map (fun e => e.biometrics.recovery_score)

/-- Mean of the first half (`values[:mid]`) of a metric series: the
divisor of the unguarded percent-change division. -/
def firstHalfMean (values : List ℚ) (mid : ℕ) : ℚ :=
  (values.take mid).sum / ((values.take mid).length : ℚ)

/-- The full trend report dict `get_trends` returns when it has data. -/
structure TrendReport where
  user_id : String
  period : String
  total_entries : ℕ
  avg_sleep_hours : ℚ
  avg_resting_hr : ℤ
  avg_recovery_score : ℤ
  sleep_trend : String
  heart_rate_trend : String
  recovery_trend : String
  compliance_distribution : List (Option Status × ℕ)
  insights : List Insight
deriving Repr, DecidableEq

/-- What `get_trends` returns: the explicit no-data dict or a report. -/
inductive TrendResult
  | noData (user_id : String) (days : ℕ)
  | report (r : TrendReport)
deriving Repr, DecidableEq

/-- `get_trends`: fetches the day-filtered history, returns the no-data
dict when empty; otherwise splits each metric series at `mid = len // 2`,
classifies the three trends (all `insufficient_data` when `mid == 0`),
and assembles averages, distribution and insights.  `none` models the
uncaught `ZeroDivisionError` out of `_calculate_trend`. -/
def get_trends (store : HistoryStore) (now : ℤ) (user_id : String) (days : ℕ) :
    Option TrendResult :=
  let entries := get_user_history store now user_id none (some days)
  if entries = [] then some (TrendResult.noData user_id days)
  else
    let sleep_values := sleepValues entries
    let hr_values := hrValues entries
    let recovery_values := recoveryValues entries
    let status_counts := tallyStatuses entries
    let mid := entries.length / 2
    let trio : Option (String × String × String) :=
      if mid > 0 then
        match calculate_trend (sleep_values.take mid) (sleep_values.drop mid),
              calculate_trend (hr_values.take mid) (hr_values.drop mid),
              calculate_trend (recovery_values.take mid) (recovery_values.drop mid) with
        | some st, some ht, some rt => some (st, ht, rt)
        | _, _, _ => none
      else some ("insufficient_data", "insufficient_data", "insufficient_data")
    match trio with
    | none => none
    | some (st, ht, rt) =>
      some (TrendResult.report {
        user_id := user_id
        period := "Last " ++ toString days ++ " days"
        total_entries := entries.length
        avg_sleep_hours := roundTo1 (sleep_values.sum / (sleep_values.length : ℚ))
        avg_resting_hr := pyRound (hr_values.sum / (hr_values.length : ℚ))
        avg_recovery_score := pyRound (recovery_values.sum / (recovery_values.length : ℚ))
        sleep_trend := st
        heart_rate_trend := ht
        recovery_trend := rt
        compliance_distribution := status_counts
        insights := generate_insights sleep_values hr_values recovery_values status_counts })

/-! Durable-file model for the crash-safety claim.  `_save_history` is
`open(self.history_file, 'w')` followed by `json.dump`: the open truncates
the file to zero length in place, then the dump appends the document.  A
proper prefix of the document (in particular the zero-length file) is not
valid JSON, which `_load_history` maps to the empty store. -/

/-- Durable file contents: a complete JSON document for a store, or an
incomplete write (zero bytes, or a proper prefix of a document), which
`json.load` rejects with `JSONDecodeError`. -/
inductive FileState
  | complete (s : HistoryStore)
  | incomplete
deriving Repr, DecidableEq

/-- `_load_history`: parse the document, or fall back to `{"users": {}}`
on `JSONDecodeError` / missing file. -/
def load_history : FileState → HistoryStore
  | FileState.complete s => s
  | FileState.incomplete => emptyStore

/-- The successive durable states of the file during `_save_history new`:
right after `open(.., 'w')` the file is truncated (incomplete), and only
after `json.dump` finishes does it hold the new document.  A crash can
leave either state on disk. -/
def save_history_states (new : HistoryStore) : List FileState :=
  [FileState.incomplete, FileState.complete new]

/-! Store lemmas. -/

lemma findUser_setUser (l : List (String × UserRecord)) (uid uid' : String) (u : UserRecord) :
    findUser (setUser l uid u) uid' = if uid' = uid then some u else findUser l uid' := by
  induction l with
  | nil =>
    simp only [setUser, findUser]
    by_cases h : uid' = uid
    · rw [if_pos h.symm, if_pos h]
    · rw [if_neg (Ne.symm h), if_neg h]
  | cons kv rest ih =>
    obtain ⟨k, v⟩ := kv
    by_cases hk : k = uid
    · subst hk
      simp only [setUser, if_pos rfl, findUser]
      by_cases h : k = uid'
      · rw [if_pos h, if_pos h.symm]
      · rw [if_neg h, if_neg (Ne.symm h), if_neg h]
    · simp only [setUser, if_neg hk, findUser, ih]
      by_cases h : k = uid'
      · have huu : ¬ uid' = uid := fun hh => hk (h.trans hh)
        rw [if_pos h, if_neg huu, if_pos h]
      · rw [if_neg h, if_neg h]

/-- Entries of a user, `[]` when unknown. -/
def userEntries (s : HistoryStore) (uid : String) : List HistoryEntry :=
  match findUser s.users uid with
  | some u => u.entries
  | none => []

/-- `completed_workouts` of a user, 0 when unknown. -/
def completedOf (s : HistoryStore) (uid : String) : ℤ :=
  match findUser s.users uid with
  | some u => u.completed_workouts
  | none => 0

/-- The `completed` flag of the first entry with a given id. -/
def findEntryCompleted : List HistoryEntry → ℕ → Option Bool
  | [], _ => none
  | e :: rest, eid => if e.id = eid then some e.completed else findEntryCompleted rest eid

/-- `completed` flag of the first entry with this id for this user. -/
def entryCompleted (s : HistoryStore) (uid : String) (eid : ℕ) : Option Bool :=
  findEntryCompleted (userEntries s uid) eid

/-- The two counters of the UserRecord agree with its entry list. -/
def userInvariant (u : UserRecord) : Prop :=
  u.total_workouts = (u.entries.length : ℤ) ∧
  u.completed_workouts = (u.entries.countP (fun e => e.completed) : ℤ)

/-- Every user record in the store satisfies `userInvariant`. -/
def storeInvariant (s : HistoryStore) : Prop :=
  ∀ uid u, findUser s.users uid = some u → userInvariant u

lemma updateEntryLoop_spec (eid : ℕ) (c : Bool) (t : ℤ) :
    ∀ (entries entries2 : List HistoryEntry) (upd : HistoryEntry) (old : Bool),
      updateEntryLoop entries eid c t = some (entries2, upd, old) →
      entries2.length = entries.length ∧
      (entries2.countP (fun e => e.completed) : ℤ)
        = (entries.countP (fun e => e.completed) : ℤ)
          + (if c && !old then 1 else if !c && old then -1 else 0) ∧
      upd.completed = c ∧
      upd.completed_at = some t ∧
      findEntryCompleted entries eid = some old ∧
      findEntryCompleted entries2 eid = some c := by
  intro entries
  induction entries with
  | nil => intro e2 u o h; simp [updateEntryLoop] at h
  | cons e rest ih =>
    intro e2 u o h
    by_cases hid : e.id = eid
    · simp only [updateEntryLoop, if_pos hid, Option.some.injEq, Prod.mk.injEq] at h
      obtain ⟨h1, h2, h3⟩ := h
      subst h1
      subst h2
      subst h3
      refine ⟨by simp, ?_, rfl, rfl, by simp [findEntryCompleted, hid],
        by simp [findEntryCompleted, hid]⟩
      cases c <;> cases ho2 : e.completed <;>
        simp [List.countP_cons, ho2] <;> omega
    · simp only [updateEntryLoop, if_neg hid] at h
      cases hrec : updateEntryLoop rest eid c t with
      | none => rw [hrec] at h; simp at h
      | some trip =>
        obtain ⟨rest2, upd2, old2⟩ := trip
        rw [hrec] at h
        simp only [Option.some.injEq, Prod.mk.injEq] at h
        obtain ⟨h1, h2, h3⟩ := h
        subst h1
        subst h2
        subst h3
        obtain ⟨l1, l2, l3, l4, l5, l6⟩ := ih rest2 upd2 old2 hrec
        refine ⟨by simp [l1], ?_, l3, l4,
          by simp only [findEntryCompleted, if_neg hid]; exact l5,
          by simp only [findEntryCompleted, if_neg hid]; exact l6⟩
        simp only [List.countP_cons]
        cases c <;> cases old2 <;> cases he : e.completed <;>
          simp [he] at l2 ⊢ <;> omega

lemma storeInvariant_empty : storeInvariant emptyStore := by
  intro uid u h
  simp [emptyStore, findUser] at h

lemma storeInvariant_add (s : HistoryStore) (ck : Clock) (uid : String)
    (bio : BiometricSnapshot) (comp : ComplianceInput) (wp rc : String) (c : Bool)
    (h : storeInvariant s) :
    storeInvariant (add_entry s ck uid bio comp wp rc c).1 := by
  intro uid' u' hf
  cases hfu : findUser s.users uid with
  | none =>
    simp only [add_entry, hfu] at hf
    rw [findUser_setUser] at hf
    by_cases he : uid' = uid
    · rw [if_pos he] at hf
      injection hf with hf
      subst hf
      constructor <;> cases c <;> simp [List.countP_cons]
    · rw [if_neg he] at hf
      exact h uid' u' hf
  | some u0 =>
    obtain ⟨i1, i2⟩ := h uid u0 hfu
    simp only [add_entry, hfu] at hf
    rw [findUser_setUser] at hf
    by_cases he : uid' = uid
    · rw [if_pos he] at hf
      injection hf with hf
      subst hf
      refine ⟨?_, ?_⟩
      · simp [i1]
      · simp only [List.countP_append, List.countP_cons, List.countP_nil]
        cases c <;> simp [i2] <;> omega
    · rw [if_neg he] at hf
      exact h uid' u' hf

lemma storeInvariant_update (s : HistoryStore) (ck : Clock) (uid : String) (eid : ℕ)
    (c : Bool) (s' : HistoryStore) (e' : HistoryEntry) (h : storeInvariant s)
    (hu : update_workout_completion s ck uid eid c = UpdateResult.ok s' e') :
    storeInvariant s' := by
  cases hfu : findUser s.users uid with
  | none => simp [update_workout_completion, hfu] at hu
  | some user =>
    cases hloop : updateEntryLoop user.entries eid c ck.now with
    | none => simp [update_workout_completion, hfu, hloop] at hu
    | some trip =>
      obtain ⟨entries2, upd, old⟩ := trip
      obtain ⟨i1, i2⟩ := h uid user hfu
      obtain ⟨l1, l2, l3, l4, l5, l6⟩ :=
        updateEntryLoop_spec eid c ck.now user.entries entries2 upd old hloop
      simp only [update_workout_completion, hfu, hloop, UpdateResult.ok.injEq] at hu
      obtain ⟨hs', he'⟩ := hu
      subst hs'
      intro uid' u' hf
      dsimp only at hf
      rw [findUser_setUser] at hf
      by_cases he : uid' = uid
      · rw [if_pos he] at hf
        injection hf with hf
        subst hf
        refine ⟨by simp [i1, l1], ?_⟩
        simp only
        rw [l2, ← i2]
      · rw [if_neg he] at hf
        exact h uid' u' hf

/-- A mutation of the store through the public interface: an append or a
completion toggle (a raised NotFound leaves the durable state unchanged). -/
inductive StoreOp
  | add (ck : Clock) (user_id : String) (biometrics : BiometricSnapshot)
      (compliance : ComplianceInput) (workout_plan recommendation : String)
      (completed : Bool)
  | setCompletion (ck : Clock) (user_id : String) (entry_id : ℕ) (completed : Bool)

/-- Execute one operation on the store state. -/
def execOp (s : HistoryStore) : StoreOp → HistoryStore
  | StoreOp.add ck uid bio comp wp rc c => (add_entry s ck uid bio comp wp rc c).1
  | StoreOp.setCompletion ck uid eid c =>
    match update_workout_completion s ck uid eid c with
    | UpdateResult.ok s' _ => s'
    | UpdateResult.notFound _ => s

/-- The store reached from the empty store by a sequence of operations. -/
def runOps (ops : List StoreOp) : HistoryStore := ops.foldl execOp emptyStore

lemma storeInvariant_execOp (s : HistoryStore) (op : StoreOp) (h : storeInvariant s) :
    storeInvariant (execOp s op) := by
  cases op with
  | add ck uid bio comp wp rc c => exact storeInvariant_add s ck uid bio comp wp rc c h
  | setCompletion ck uid eid c =>
    simp only [execOp]
    cases hu : update_workout_completion s ck uid eid c with
    | ok s' e' => exact storeInvariant_update s ck uid eid c s' e' h hu
    | notFound m => exact h

lemma set_completion_twice (s : HistoryStore) (ck1 ck2 : Clock) (uid : String) (eid : ℕ)
    (s1 s2 : HistoryStore) (e1 e2 : HistoryEntry)
    (hc : entryCompleted s uid eid = some false)
    (h1 : update_workout_completion s ck1 uid eid true = UpdateResult.ok s1 e1)
    (h2 : update_workout_completion s1 ck2 uid eid true = UpdateResult.ok s2 e2) :
    completedOf s1 uid = completedOf s uid + 1 ∧ completedOf s2 uid = completedOf s1 uid := by
  cases hfu : findUser s.users uid with
  | none => simp [update_workout_completion, hfu] at h1
  | some user =>
    cases hloop : updateEntryLoop user.entries eid true ck1.now with
    | none => simp [update_workout_completion, hfu, hloop] at h1
    | some trip =>
      obtain ⟨entries2, upd, old⟩ := trip
      obtain ⟨l1, l2, l3, l4, l5, l6⟩ :=
        updateEntryLoop_spec eid true ck1.now user.entries entries2 upd old hloop
      have hold : old = false := by
        have hfe : findEntryCompleted user.entries eid = some false := by
          simpa [entryCompleted, userEntries, hfu] using hc
        rw [l5] at hfe
        exact Option.some.inj hfe
      subst hold
      simp only [update_workout_completion, hfu, hloop, UpdateResult.ok.injEq] at h1
      obtain ⟨hs1, he1⟩ := h1
      have hfu1 : findUser s1.users uid
          = some { user with
              entries := entries2
              completed_workouts := user.completed_workouts + 1 } := by
        rw [← hs1]
        dsimp only
        rw [findUser_setUser, if_pos rfl]
        simp
      have hco1 : completedOf s1 uid = user.completed_workouts + 1 := by
        simp [completedOf, hfu1]
      refine ⟨by rw [hco1]; simp [completedOf, hfu], ?_⟩
      cases hloop2 : updateEntryLoop entries2 eid true ck2.now with
      | none => simp [update_workout_completion, hfu1, hloop2] at h2
      | some trip2 =>
        obtain ⟨entries3, upd2, old2⟩ := trip2
        obtain ⟨m1, m2, m3, m4, m5, m6⟩ :=
          updateEntryLoop_spec eid true ck2.now entries2 entries3 upd2 old2 hloop2
        have hold2 : old2 = true := by
          rw [l6] at m5
          exact (Option.some.inj m5).symm
        subst hold2
        simp only [update_workout_completion, hfu1, hloop2, UpdateResult.ok.injEq] at h2
        obtain ⟨hs2, he2⟩ := h2
        have hfu2 : findUser s2.users uid
            = some { user with
                entries := entries3
                completed_workouts := user.completed_workouts + 1 } := by
          rw [← hs2]
          dsimp only
          rw [findUser_setUser, if_pos rfl]
          simp
        simp [completedOf, hfu1, hfu2, hco1]

/-- C3: every store reachable by appends and completion toggles keeps
`total_workouts` equal to the number of entries and `completed_workouts`
equal to the number of completed entries, for every user; consequently
toggling the same not-yet-completed entry to `true` twice increments
`completed_workouts` by exactly 1 (on the first call) and not again on the
second. -/
theorem history_counters_invariant (ops : List StoreOp) :
    storeInvariant (runOps ops) ∧
    (∀ (ck1 ck2 : Clock) (uid : String) (eid : ℕ) (s1 s2 : HistoryStore)
        (e1 e2 : HistoryEntry),
      entryCompleted (runOps ops) uid eid = some false →
      update_workout_completion (runOps ops) ck1 uid eid true = UpdateResult.ok s1 e1 →
      update_workout_completion s1 ck2 uid eid true = UpdateResult.ok s2 e2 →
      completedOf s1 uid = completedOf (runOps ops) uid + 1 ∧
      completedOf s2 uid = completedOf s1 uid) := by
  constructor
  · have h : ∀ (l : List StoreOp) (s : HistoryStore),
        storeInvariant s → storeInvariant (l.foldl execOp s) := by
      intro l
      induction l with
      | nil => intro s hs; exact hs
      | cons op rest ih =>
        intro s hs
        exact ih (execOp s op) (storeInvariant_execOp s op hs)
    exact h ops emptyStore storeInvariant_empty
  · intro ck1 ck2 uid eid s1 s2 e1 e2 hc h1 h2
    exact set_completion_twice (runOps ops) ck1 ck2 uid eid s1 s2 e1 e2 hc h1 h2

/-- Test fixture: a snapshot for witness runs. -/
def bioW : BiometricSnapshot := ⟨7, 60, 80⟩

/-- Test fixture: a compliance summary for witness runs. -/
def compW : ComplianceInput := ⟨some Status.Optimal, some 0, some []⟩

/-- Test fixture: one uncompleted append for user `"u"`. -/
def opW : StoreOp := StoreOp.add ⟨0, "Mon", 1⟩ "u" bioW compW "plan" "rec" false

/-- Test fixture: the store after `opW`. -/
def s0W : HistoryStore := runOps [opW]

/-- Test fixture clocks for the two completion toggles. -/
def ckB : Clock := ⟨5, "Tue", 1⟩

/-- Second test fixture clock. -/
def ckC : Clock := ⟨6, "Wed", 1⟩

/-- Placeholder entry for impossible match arms in fixtures. -/
def dummyEntry : HistoryEntry :=
  ⟨0, 0, bioW, none, 0, [], "", "", false, none, "", 0⟩

/-- Store after the first completion toggle on `s0W`. -/
def s1W : HistoryStore :=
  match update_workout_completion s0W ckB "u" 1 true with
  | UpdateResult.ok st _ => st
  | UpdateResult.notFound _ => emptyStore

/-- Entry returned by the first completion toggle on `s0W`. -/
def e1W : HistoryEntry :=
  match update_workout_completion s0W ckB "u" 1 true with
  | UpdateResult.ok _ e => e
  | UpdateResult.notFound _ => dummyEntry

/-- Store after the second completion toggle. -/
def s2W : HistoryStore :=
  match update_workout_completion s1W ckC "u" 1 true with
  | UpdateResult.ok st _ => st
  | UpdateResult.notFound _ => emptyStore

/-- Entry returned by the second completion toggle. -/
def e2W : HistoryEntry :=
  match update_workout_completion s1W ckC "u" 1 true with
  | UpdateResult.ok _ e => e
  | UpdateResult.notFound _ => dummyEntry

/-- Witness for C3: one uncompleted append, then two `true` toggles of
entry 1; `completed_workouts` rises by exactly 1 and then stays put. -/
theorem history_counters_invariant_witness :
    storeInvariant (runOps [opW]) ∧
    completedOf s1W "u" = completedOf (runOps [opW]) "u" + 1 ∧
    completedOf s2W "u" = completedOf s1W "u" := by
  have h := history_counters_invariant [opW]
  have h2 := h.2 ckB ckC "u" 1 s1W s2W e1W e2W rfl rfl rfl
  exact ⟨h.1, h2.1, h2.2⟩

/-- The arguments of one `add_entry` call (with its clock). -/
structure AddArgs where
  ck : Clock
  biometrics : BiometricSnapshot
  compliance : ComplianceInput
  workout_plan : String
  recommendation : String
  completed : Bool
deriving Repr, DecidableEq

/-- Append a sequence of entries for one user. -/
def addMany (s : HistoryStore) (uid : String) (args : List AddArgs) : HistoryStore :=
  args.foldl (fun st a =>
    (add_entry st a.ck uid a.biometrics a.compliance a.workout_plan a.recommendation
      a.completed).1) s

/-- The entry `add_entry` builds when the user already holds `n` entries. -/
def expectedEntry (a : AddArgs) (n : ℕ) : HistoryEntry :=
  { id := n + 1
    timestamp := a.ck.now
    biometrics := a.biometrics
    compliance_status := a.compliance.status
    compliance_severity := a.compliance.severity_score.getD 0
    compliance_reasons := a.compliance.reasons.getD []
    workout_plan := a.workout_plan
    recommendation_preview := a.recommendation.take 200 ++ "..."
    completed := a.completed
    completed_at := none
    day_name := a.ck.day_name
    week_number := a.ck.week_number }

/-- The entries a sequence of appends builds, ids counting up from
`start + 1`. -/
def expectedEntries (args : List AddArgs) (start : ℕ) : List HistoryEntry :=
  match args with
  | [] => []
  | a :: rest => expectedEntry a start :: expectedEntries rest (start + 1)

lemma add_entry_userEntries (s : HistoryStore) (a : AddArgs) (uid : String) :
    userEntries (add_entry s a.ck uid a.biometrics a.compliance a.workout_plan
        a.recommendation a.completed).1 uid
      = userEntries s uid ++ [expectedEntry a (userEntries s uid).length] := by
  cases hfu : findUser s.users uid with
  | none =>
    simp [add_entry, hfu, userEntries, findUser_setUser, expectedEntry]
  | some u0 =>
    simp [add_entry, hfu, userEntries, findUser_setUser, expectedEntry]

lemma addMany_userEntries (uid : String) :
    ∀ (args : List AddArgs) (s : HistoryStore),
      userEntries (addMany s uid args) uid
        = userEntries s uid ++ expectedEntries args (userEntries s uid).length := by
  intro args
  induction args with
  | nil => intro s; simp [addMany, expectedEntries]
  | cons a rest ih =>
    intro s
    have hstep : addMany s uid (a :: rest)
        = addMany (add_entry s a.ck uid a.biometrics a.compliance a.workout_plan
            a.recommendation a.completed).1 uid rest := rfl
    rw [hstep, ih, add_entry_userEntries]
    simp [expectedEntries]

lemma get_user_history_noFilters (s : HistoryStore) (now : ℤ) (uid : String) :
    get_user_history s now uid none none = userEntries s uid := by
  unfold get_user_history userEntries
  cases findUser s.users uid <;> simp

lemma expectedEntries_ids (args : List AddArgs) :
    ∀ start : ℕ, (expectedEntries args start).map (fun e => e.id)
      = List.range' (start + 1) args.length := by
  induction args with
  | nil => intro start; simp [expectedEntries]
  | cons a rest ih =>
    intro start
    simp [expectedEntries, expectedEntry, List.range', ih (start + 1), Nat.add_assoc,
      Nat.add_comm 1 1]

/-- C4: appending N entries for a fresh user and listing with no filters
returns exactly those N entries in append order, ids 1..N, each id being
the entry count before its append plus one. -/
theorem append_list_round_trip (s : HistoryStore) (now : ℤ) (uid : String)
    (args : List AddArgs) (h : findUser s.users uid = none) :
    get_user_history (addMany s uid args) now uid none none = expectedEntries args 0 ∧
    (get_user_history (addMany s uid args) now uid none none).map (fun e => e.id)
      = List.range' 1 args.length := by
  have hempty : userEntries s uid = [] := by simp [userEntries, h]
  have hmain : get_user_history (addMany s uid args) now uid none none
      = expectedEntries args 0 := by
    rw [get_user_history_noFilters, addMany_userEntries, hempty]
    simp
  refine ⟨hmain, ?_⟩
  rw [hmain]
  simpa using expectedEntries_ids args 0

/-- Witness for C4: two appends for fresh `"alice"`; the unfiltered list is
the two built entries with ids `[1, 2]`. -/
theorem append_list_round_trip_witness :
    get_user_history (addMany emptyStore "alice"
        [⟨⟨0, "Mon", 1⟩, bioW, compW, "p1", "r1", false⟩,
         ⟨⟨1, "Tue", 1⟩, bioW, compW, "p2", "r2", true⟩]) 0 "alice" none none
      = expectedEntries
          [⟨⟨0, "Mon", 1⟩, bioW, compW, "p1", "r1", false⟩,
           ⟨⟨1, "Tue", 1⟩, bioW, compW, "p2", "r2", true⟩] 0 ∧
    (get_user_history (addMany emptyStore "alice"
        [⟨⟨0, "Mon", 1⟩, bioW, compW, "p1", "r1", false⟩,
         ⟨⟨1, "Tue", 1⟩, bioW, compW, "p2", "r2", true⟩]) 0 "alice" none none).map
        (fun e => e.id)
      = List.range' 1 2 := by
  exact append_list_round_trip emptyStore 0 "alice"
    [⟨⟨0, "Mon", 1⟩, bioW, compW, "p1", "r1", false⟩,
     ⟨⟨1, "Tue", 1⟩, bioW, compW, "p2", "r2", true⟩] rfl

lemma drop_sub_suffix (l : List HistoryEntry) (k : ℕ) :
    (∃ pre, l = pre ++ l.drop (l.length - k)) ∧
    (l.drop (l.length - k)).length = min k l.length := by
  refine ⟨⟨l.take (l.length - k), (List.take_append_drop _ _).symm⟩, ?_⟩
  rw [List.length_drop]
  omega

/-- C8: with a positive `limit = k`, the listing is the suffix of the
day-filtered chronological order of length `min k (filtered length)`: the
k most recent entries, or all of them when fewer remain. -/
theorem limit_returns_suffix (s : HistoryStore) (now : ℤ) (uid : String)
    (days : Option ℕ) (k : ℕ) (hk : k ≠ 0) :
    (∃ pre, get_user_history s now uid none days
        = pre ++ get_user_history s now uid (some k) days) ∧
    (get_user_history s now uid (some k) days).length
      = min k (get_user_history s now uid none days).length := by
  unfold get_user_history
  cases hfu : findUser s.users uid with
  | none => exact ⟨⟨[], rfl⟩, by simp⟩
  | some user =>
    dsimp only
    simp only [if_pos hk]
    exact drop_sub_suffix _ k

/-- Test fixture: one append argument. -/
def argW : AddArgs := ⟨⟨0, "Mon", 1⟩, bioW, compW, "p", "r", false⟩

/-- Test fixture: a user with seven entries. -/
def s7W : HistoryStore := addMany emptyStore "u" (List.replicate 7 argW)

/-- Witness for C8: limit 3 on a 7-entry user returns a length-3 suffix,
the entries with ids 5, 6, 7 in chronological order. -/
theorem limit_returns_suffix_witness :
    (∃ pre, get_user_history s7W 0 "u" none none
        = pre ++ get_user_history s7W 0 "u" (some 3) none) ∧
    (get_user_history s7W 0 "u" (some 3) none).length
      = min 3 (get_user_history s7W 0 "u" none none).length ∧
    (get_user_history s7W 0 "u" (some 3) none).map (fun e => e.id) = [5, 6, 7] := by
  have h := limit_returns_suffix s7W 0 "u" none 3 (by decide)
  exact ⟨h.1, h.2, by decide⟩

lemma findEntryCompleted_none_iff (eid : ℕ) :
    ∀ l : List HistoryEntry,
      findEntryCompleted l eid = none ↔ ∀ e ∈ l, e.id ≠ eid := by
  intro l
  induction l with
  | nil => simp [findEntryCompleted]
  | cons e rest ih =>
    by_cases hid : e.id = eid
    · simp [findEntryCompleted, hid]
    · simp [findEntryCompleted, hid, ih]

lemma updateEntryLoop_none_iff_find (eid : ℕ) (c : Bool) (t : ℤ) :
    ∀ l : List HistoryEntry,
      updateEntryLoop l eid c t = none ↔ findEntryCompleted l eid = none := by
  intro l
  induction l with
  | nil => simp [updateEntryLoop, findEntryCompleted]
  | cons e rest ih =>
    by_cases hid : e.id = eid
    · simp [updateEntryLoop, findEntryCompleted, hid]
    · simp only [updateEntryLoop, findEntryCompleted, if_neg hid]
      cases hrec : updateEntryLoop rest eid c t with
      | none => simp [ih.mp hrec]
      | some trip =>
        obtain ⟨a, b, c2⟩ := trip
        have hne : findEntryCompleted rest eid ≠ none := by
          intro hn
          rw [ih.mpr hn] at hrec
          cases hrec
        simp [hne]

/-- C6: `update_workout_completion` raises NotFound exactly when the user
is unknown or no entry of that user has the given id; every successful
call stamps `completed_at`; and the read operations on an unknown user
return the empty list, the zero-state stats payload and the explicit
no-data trend report instead of failing. -/
theorem notfound_error_discipline (s : HistoryStore) (ck : Clock) (uid : String)
    (eid : ℕ) (c : Bool) (now : ℤ) (lim dys : Option ℕ) (d : ℕ) :
    ((∃ msg, update_workout_completion s ck uid eid c = UpdateResult.notFound msg)
      ↔ (findUser s.users uid = none ∨ ∀ e ∈ userEntries s uid, e.id ≠ eid)) ∧
    (∀ s' e', update_workout_completion s ck uid eid c = UpdateResult.ok s' e' →
      e'.completed_at = some ck.now) ∧
    (findUser s.users uid = none →
      get_user_history s now uid lim dys = [] ∧
      get_stats s uid = zeroStats uid ∧
      get_trends s now uid d = some (TrendResult.noData uid d)) := by
  refine ⟨?_, ?_, ?_⟩
  · cases hfu : findUser s.users uid with
    | none =>
      constructor
      · intro _
        exact Or.inl rfl
      · intro _
        exact ⟨"User " ++ uid ++ " not found", by simp [update_workout_completion, hfu]⟩
    | some user =>
      have hue : userEntries s uid = user.entries := by simp [userEntries, hfu]
      cases hloop : updateEntryLoop user.entries eid c ck.now with
      | none =>
        have hfind := (updateEntryLoop_none_iff_find eid c ck.now user.entries).mp hloop
        have hall := (findEntryCompleted_none_iff eid user.entries).mp hfind
        constructor
        · intro _
          exact Or.inr (hue ▸ hall)
        · intro _
          exact ⟨"Entry " ++ toString eid ++ " not found for user " ++ uid,
            by simp [update_workout_completion, hfu, hloop]⟩
      | some trip =>
        obtain ⟨e2, u2, o2⟩ := trip
        constructor
        · rintro ⟨msg, hmsg⟩
          simp [update_workout_completion, hfu, hloop] at hmsg
        · rintro (h1 | h2)
          · exact absurd h1 (by simp)
          · exfalso
            have hfind := (findEntryCompleted_none_iff eid user.entries).mpr (hue ▸ h2)
            have hln := (updateEntryLoop_none_iff_find eid c ck.now user.entries).mpr hfind
            rw [hln] at hloop
            cases hloop
  · intro s' e' hok
    cases hfu : findUser s.users uid with
    | none => simp [update_workout_completion, hfu] at hok
    | some user =>
      cases hloop : updateEntryLoop user.entries eid c ck.now with
      | none => simp [update_workout_completion, hfu, hloop] at hok
      | some trip =>
        obtain ⟨e2, u2, o2⟩ := trip
        obtain ⟨l1, l2, l3, l4, l5, l6⟩ :=
          updateEntryLoop_spec eid c ck.now user.entries e2 u2 o2 hloop
        simp only [update_workout_completion, hfu, hloop, UpdateResult.ok.injEq] at hok
        obtain ⟨hs', he'⟩ := hok
        rw [← he']
        exact l4
  · intro hfu
    refine ⟨by simp [get_user_history, hfu], by simp [get_stats, hfu], ?_⟩
    have hempty : get_user_history s now uid none (some d) = [] := by
      simp [get_user_history, hfu]
    simp [get_trends, hempty]

/-- Witness for C6 on the empty store and user `"bob"`: the mutation
raises NotFound while list, stats and trends return their non-failing
empty-state results. -/
theorem notfound_error_discipline_witness :
    (∃ msg, update_workout_completion emptyStore ckB "bob" 1 true
        = UpdateResult.notFound msg) ∧
    get_user_history emptyStore 0 "bob" none none = [] ∧
    get_stats emptyStore "bob" = zeroStats "bob" ∧
    get_trends emptyStore 0 "bob" 30 = some (TrendResult.noData "bob" 30) := by
  have h := notfound_error_discipline emptyStore ckB "bob" 1 true 0 none none 30
  have h3 := h.2.2 rfl
  exact ⟨(h.1).mpr (Or.inl rfl), h3.1, h3.2.1, h3.2.2⟩

/-- C5: with both halves nonempty and a nonzero first-half mean, the trend
direction is `improving` exactly when the percent change of the half means
exceeds +5, `declining` exactly when it is below −5, and `stable` exactly
on the closed interval between — so the ±5 boundary itself is stable
(exclusive comparison); an empty half always yields `insufficient_data`. -/
theorem trend_boundary_classification (f s : List ℚ) (hf : f ≠ []) (hs : s ≠ [])
    (hnz : f.sum / (f.length : ℚ) ≠ 0) :
    (calculate_trend f s = some "improving"
      ↔ 5 < (s.sum / (s.length : ℚ) - f.sum / (f.length : ℚ))
            / (f.sum / (f.length : ℚ)) * 100) ∧
    (calculate_trend f s = some "declining"
      ↔ (s.sum / (s.length : ℚ) - f.sum / (f.length : ℚ))
            / (f.sum / (f.length : ℚ)) * 100 < -5) ∧
    (calculate_trend f s = some "stable"
      ↔ (-5 ≤ (s.sum / (s.length : ℚ) - f.sum / (f.length : ℚ))
              / (f.sum / (f.length : ℚ)) * 100 ∧
          (s.sum / (s.length : ℚ) - f.sum / (f.length : ℚ))
              / (f.sum / (f.length : ℚ)) * 100 ≤ 5)) ∧
    (∀ g : List ℚ, calculate_trend [] g = some "insufficient_data"
      ∧ calculate_trend g [] = some "insufficient_data") := by
  have hins : ∀ g : List ℚ, calculate_trend [] g = some "insufficient_data"
      ∧ calculate_trend g [] = some "insufficient_data" := by
    intro g
    constructor <;> simp [calculate_trend]
  have key : calculate_trend f s =
      (if (s.sum / (s.length : ℚ) - f.sum / (f.length : ℚ))
            / (f.sum / (f.length : ℚ)) * 100 > 5 then some "improving"
       else if (s.sum / (s.length : ℚ) - f.sum / (f.length : ℚ))
            / (f.sum / (f.length : ℚ)) * 100 < -5 then some "declining"
       else some "stable") := by
    simp only [calculate_trend]
    rw [if_neg (by simp [hf, hs]), if_neg hnz]
  refine ⟨?_, ?_, ?_, hins⟩ <;> rw [key] <;> split_ifs with h1 h2
  · exact iff_of_true rfl h1
  · exact iff_of_false (by decide) h1
  · exact iff_of_false (by decide) h1
  · exact iff_of_false (by decide) (by intro hc; linarith)
  · exact iff_of_true rfl h2
  · exact iff_of_false (by decide) h2
  · exact iff_of_false (by decide) (by intro hc; linarith [hc.2])
  · exact iff_of_false (by decide) (by intro hc; linarith [hc.1])
  · exact iff_of_true rfl ⟨not_lt.mp h2, not_lt.mp h1⟩

/-- Witness for C5: first-half mean 6 vs second-half mean 7 (≈16.7 percent
increase) is improving, while exactly +5 percent (20 vs 21) is stable. -/
theorem trend_boundary_witness :
    calculate_trend [6] [7] = some "improving" ∧
    calculate_trend [20] [21] = some "stable" := by
  have h1 := (trend_boundary_classification [6] [7] (by decide) (by decide)
    (by norm_num)).1
  have h2 := (trend_boundary_classification [20] [21] (by decide) (by decide)
    (by norm_num)).2.2.1
  constructor
  · rw [h1]
    norm_num
  · rw [h2]
    norm_num

lemma calculate_trend_isSome (f s : List ℚ) (hf : f ≠ []) (hs : s ≠ [])
    (hnz : f.sum / (f.length : ℚ) ≠ 0) :
    ∃ str, calculate_trend f s = some str := by
  simp only [calculate_trend]
  rw [if_neg (by simp [hf, hs]), if_neg hnz]
  split_ifs <;> exact ⟨_, rfl⟩

/-- Test fixture: two in-window appends whose first-half sleep series is
all zeros (the other metrics have nonzero first-half means). -/
def zeroSleepArgs : List AddArgs :=
  [⟨⟨95, "Fri", 40⟩, ⟨0, 50, 80⟩, compW, "p", "r", false⟩,
   ⟨⟨96, "Fri", 40⟩, ⟨5, 52, 82⟩, compW, "p", "r", false⟩]

/-- Test fixture: the store built from `zeroSleepArgs`. -/
def zeroSleepStoreW : HistoryStore := addMany emptyStore "u" zeroSleepArgs

/-- C9: whenever the day-filtered history is nonempty, its midpoint split
has a nonempty first half, and the first-half mean of each metric is
nonzero, `get_trends` returns a full report without error; the division by
the first-half mean is unguarded, and a history whose first-half sleep
values are all zero (mean zero) makes `get_trends` raise
`ZeroDivisionError` (modelled as `none`). -/
theorem trends_unguarded_division (store : HistoryStore) (now : ℤ) (uid : String) (d : ℕ) :
    (∀ entries, entries = get_user_history store now uid none (some d) →
      entries ≠ [] →
      0 < entries.length / 2 →
      firstHalfMean (sleepValues entries) (entries.length / 2) ≠ 0 →
      firstHalfMean (hrValues entries) (entries.length / 2) ≠ 0 →
      firstHalfMean (recoveryValues entries) (entries.length / 2) ≠ 0 →
      ∃ r, get_trends store now uid d = some (TrendResult.report r)) ∧
    get_trends zeroSleepStoreW 100 "u" 30 = none := by
  constructor
  · intro entries hent hne hmid h1 h2 h3
    have hlenpos : 0 < entries.length := List.length_pos.mpr hne
    have hmidlt : entries.length / 2 < entries.length := Nat.div_lt_self hlenpos (by norm_num)
    have hslen : (sleepValues entries).length = entries.length := by
      simp [sleepValues]
    have hhlen : (hrValues entries).length = entries.length := by
      simp [hrValues]
    have hrlen : (recoveryValues entries).length = entries.length := by
      simp [recoveryValues]
    have htake : ∀ v : List ℚ, v.length = entries.length →
        v.take (entries.length / 2) ≠ [] := by
      intro v hv hc
      rw [List.take_eq_nil_iff] at hc
      rcases hc with hc | hc
      all_goals first
      | omega
      | (rw [hc] at hv
         simp at hv
         omega)
    have hdrop : ∀ v : List ℚ, v.length = entries.length →
        v.drop (entries.length / 2) ≠ [] := by
      intro v hv
      intro hc
      have := List.drop_eq_nil_iff.mp hc
      omega
    obtain ⟨st1, hcs⟩ := calculate_trend_isSome _ _
      (htake _ hslen) (hdrop _ hslen) h1
    obtain ⟨st2, hch⟩ := calculate_trend_isSome _ _
      (htake _ hhlen) (hdrop _ hhlen) h2
    obtain ⟨st3, hcr⟩ := calculate_trend_isSome _ _
      (htake _ hrlen) (hdrop _ hrlen) h3
    subst hent
    simp only [get_trends]
    rw [if_neg hne, if_pos hmid, hcs, hch, hcr]
    exact ⟨_, rfl⟩
  · norm_num [get_trends, get_user_history, zeroSleepStoreW, zeroSleepArgs, addMany,
      add_entry, emptyStore, setUser, findUser, calculate_trend, sleepValues,
      hrValues, recoveryValues, compW, List.filter]
    exact fun h => absurd h (by simp)

/-- Test fixture: two in-window appends with nonzero first-half means for
all three metrics. -/
def goodArgs : List AddArgs :=
  [⟨⟨95, "Fri", 40⟩, ⟨6, 60, 80⟩, compW, "p", "r", false⟩,
   ⟨⟨96, "Fri", 40⟩, ⟨7, 62, 82⟩, compW, "p", "r", false⟩]

/-- Test fixture: the store built from `goodArgs`. -/
def goodStoreW : HistoryStore := addMany emptyStore "u" goodArgs

/-- Witness for C9: on a two-entry history with nonzero first-half means,
`get_trends` produces a full report. -/
theorem trends_unguarded_division_witness :
    ∃ r, get_trends goodStoreW 100 "u" 30 = some (TrendResult.report r) := by
  exact (trends_unguarded_division goodStoreW 100 "u" 30).1
    (get_user_history goodStoreW 100 "u" none (some 30)) rfl
    (by decide) (by decide)
    (by norm_num [firstHalfMean, sleepValues, get_user_history, goodStoreW, goodArgs,
      addMany, add_entry, emptyStore, setUser, findUser, List.filter])
    (by norm_num [firstHalfMean, hrValues, get_user_history, goodStoreW, goodArgs,
      addMany, add_entry, emptyStore, setUser, findUser, List.filter])
    (by norm_num [firstHalfMean, recoveryValues, get_user_history, goodStoreW, goodArgs,
      addMany, add_entry, emptyStore, setUser, findUser, List.filter])

/-- C2 evidence: `_save_history` passes through a truncated durable state
(the `open(.., 'w')` truncation window); a crash there loads as the empty
store, which is neither the pre-append state (one entry for `"u"`) nor the
fully-appended state — the claimed old-or-new atomicity fails. -/
theorem save_history_truncation_window :
    FileState.incomplete ∈ save_history_states
      (add_entry s0W ckB "u" bioW compW "plan" "rec2" false).1 ∧
    load_history FileState.incomplete ≠ s0W ∧
    load_history FileState.incomplete
      ≠ (add_entry s0W ckB "u" bioW compW "plan" "rec2" false).1 := by
  refine ⟨by simp [save_history_states], ?_, ?_⟩
  · intro h
    have husers := congrArg HistoryStore.users h
    simp [load_history, emptyStore, s0W, runOps, execOp, opW, add_entry,
      findUser, setUser] at husers
  · intro h
    have husers := congrArg HistoryStore.users h
    simp [load_history, emptyStore, s0W, runOps, execOp, opW, add_entry,
      findUser, setUser] at husers
